import Mathlib

/-!
# Verification of the PC-Data-Dash fetch-and-normalize engine

Shallow embedding of the core of the repository: the retrying HTTP transport
(`src/fetch/fetch_handler.py`), the pagination strategies
(`src/fetch/un_sdg_fetch.py`, `src/fetch/world_bank_fetch.py`), the geo-code
resolver, the record flattener, and the per-source normalizers
(`src/clean/un_sdg_clean.py`, `src/clean/nd_gain_clean.py`,
`src/clean/world_bank_clean.py`, `src/clean/hdr_clean.py`).

Python values are modelled by the inductive `Value`; Python dicts that the code
treats as JSON records are modelled as association lists `RecD` (Python dicts
are insertion ordered and key-unique; lookups take the first match). Machine
floats of the backoff arithmetic are modelled as exact rationals. Time-only
effects (sleeping, pacing delays) are recorded in traces rather than performed.
-/

namespace PCDash

/-- A Python/JSON value as it appears in the repository's records. -/
inductive Value where
  | vnull
  | vstr (s : String)
  | vint (n : Int)
  | vlist (elems : List Value)
  | vdict (entries : List (String × Value))
deriving Repr

/-- A Python dict record: insertion-ordered association list with string keys. -/
abbrev RecD := List (String × Value)

/-- Python `d.get(k)`: first binding of `k`, `none` when absent. -/
def lookupD (d : RecD) (k : String) : Option Value :=
  match d with
  | [] => none
  | (k', v) :: d' => if k' = k then some v else lookupD d' k

/-- Python truthiness of a value (`bool(v)`). -/
def pyTruthy : Value → Bool
  | .vnull => false
  | .vstr s => s ≠ ""
  | .vint n => n ≠ 0
  | .vlist l => !l.isEmpty
  | .vdict d => !d.isEmpty

/-- Python errors raised by the embedded code paths. -/
inductive PyErr where
  | keyError
  | indexError
  | typeError
  | attributeError
  | transport
deriving Repr, DecidableEq

/-- Normalize a stored Python `None` into `Option.none` (pandas treats a stored
`None` and a missing key alike as a null cell). -/
def normOpt : Option Value → Option Value
  | some .vnull => none
  | o => o

/-- Python `s.isdigit()` for the year-column detection. -/
def isDigitStr (s : String) : Bool :=
  s ≠ "" && s.toList.all Char.isDigit

/-- Numeric value of a digit list. -/
def digitsVal (cs : List Char) : Nat :=
  cs.foldl (fun acc c => acc * 10 + (c.toNat - '0'.toNat)) 0

/-- Numeric value of a digit string. -/
def digitsToNat (s : String) : Nat :=
  digitsVal s.toList

/-- Whitespace stripping at both ends (Python `str.strip`). -/
def trimChars (cs : List Char) : List Char :=
  ((cs.dropWhile Char.isWhitespace).reverse.dropWhile Char.isWhitespace).reverse

/-- Model of `pandas.to_numeric(·, errors="coerce")` on a single string cell:
parse a decimal literal (optional sign, optional fractional part); anything
unparseable becomes null (NaN).  Exponents and special floats are not used by
the data any claim mentions and are left unparsed. -/
def parseNum (s : String) : Option ℚ :=
  let cs := trimChars s.toList
  let signBody : Bool × List Char :=
    match cs with
    | '-' :: t => (true, t)
    | '+' :: t => (false, t)
    | t => (false, t)
  let neg := signBody.1
  let a := signBody.2.takeWhile (fun c => c ≠ '.')
  match signBody.2.dropWhile (fun c => c ≠ '.') with
  | [] =>
    if !a.isEmpty && a.all Char.isDigit then
      some (((if neg then -(digitsVal a : Int) else (digitsVal a : Int)) : ℚ))
    else none
  | _ :: b =>
    if a.all Char.isDigit && b.all Char.isDigit && (!a.isEmpty || !b.isEmpty) then
      some ((if neg then (-1 : ℚ) else 1) *
        ((digitsVal a : ℚ) + (digitsVal b : ℚ) / (10 : ℚ) ^ b.length))
    else none

/-- Column-wise `pd.to_numeric(col, errors="coerce")` applied to one cell. -/
def toNumeric : Option Value → Option ℚ
  | none => none
  | some .vnull => none
  | some (.vint n) => some (n : ℚ)
  | some (.vstr s) => parseNum s
  | some _ => none

/-- Cast `.astype("Int64")` after numeric coercion: keep integral values, null
otherwise. -/
def toInt64 (q : Option ℚ) : Option Int :=
  q.bind fun x => if x.den = 1 then some x.num else none

/-! ## RetryingTransport — `FetchHandler` (`src/fetch/fetch_handler.py`) -/

/-- Configuration `FetchHandlerConfig` from `fetch_handler.py` (the retry policy).  Backoff
fields are seconds, modelled exactly as rationals. -/
structure FetchHandlerConfig where
  timeout : ℕ := 60
  max_retries : ℕ := 8
  initial_backoff : ℚ := 2
  max_backoff : ℚ := 120
  backoff_multiplier : ℚ := 2
  delay_between_requests : ℚ := 1/2
  retry_on_status : List ℕ := [429, 500, 502, 503, 504]

/-- Python `min(a, b)` on two numbers (returns the first operand on ties). -/
def pymin (a b : ℚ) : ℚ :=
  if a ≤ b then a else b

/-- Method `FetchHandler._backoff`: `min(initial_backoff * backoff_multiplier ** (attempt - 1), max_backoff)`. -/
def FetchHandler.backoff (cfg : FetchHandlerConfig) (attempt : ℕ) : ℚ :=
  pymin (cfg.initial_backoff * cfg.backoff_multiplier ^ (attempt - 1)) cfg.max_backoff

/-- What one network attempt of `requests.get` produces: an HTTP status, or a
connection-level exception. -/
inductive AttemptOutcome where
  | status (code : ℕ)
  | timeout
  | connError
  | reqError
deriving Repr, DecidableEq

/-- The result of `FetchHandler.get`.  `exhausted` is the generic
`RequestException(msg)` raised when retries run out with no recorded
exception — its message carries the retry count, URL and context label.
`raisedLast` is the bare re-raise of the last stored exception. -/
inductive GetResult where
  | success (status : ℕ)
  | httpError (status : ℕ)
  | raisedLast (e : AttemptOutcome)
  | exhausted (maxRetries : ℕ) (url context : String)
deriving Repr, DecidableEq

/-- Whether the raised error object carries the last underlying per-attempt
error (only the re-raise of a stored exception does). -/
def GetResult.carriesUnderlying : GetResult → Bool
  | .raisedLast _ => true
  | _ => false

/-- The context label carried by the raised error object, if any. -/
def GetResult.contextOf : GetResult → Option String
  | .exhausted _ _ ctx => some ctx
  | _ => none

/-- The retry loop of `FetchHandler.get`, lines 84–142.  `remaining` is
`max_retries - attempt` (the loop guard `attempt < max_retries`); the second
component counts attempts actually made and the third records every backoff
sleep as `(attempt, seconds)` (pacing sleeps are time-only and not recorded).
The per-attempt outcome is supplied by `oracle`. -/
def FetchHandler.getLoop (cfg : FetchHandlerConfig) (oracle : ℕ → AttemptOutcome)
    (url ctx : String) (lastExc : Option AttemptOutcome) (attempt : ℕ) :
    ℕ → GetResult × ℕ × List (ℕ × ℚ)
  | 0 =>
    (match lastExc with
     | some e => .raisedLast e
     | none => .exhausted cfg.max_retries url ctx, attempt, [])
  | r + 1 =>
    let a := attempt + 1
    match oracle a with
    | .status s =>
      if s ∈ cfg.retry_on_status then
        let rest := FetchHandler.getLoop cfg oracle url ctx lastExc a r
        (rest.1, rest.2.1, (a, FetchHandler.backoff cfg a) :: rest.2.2)
      else if 400 ≤ s then (.httpError s, a, [])
      else (.success s, a, [])
    | e =>
      let rest := FetchHandler.getLoop cfg oracle url ctx (some e) a r
      (rest.1, rest.2.1, (a, FetchHandler.backoff cfg a) :: rest.2.2)

/-- Method `FetchHandler.get`. -/
def FetchHandler.get (cfg : FetchHandlerConfig) (oracle : ℕ → AttemptOutcome)
    (url ctx : String) : GetResult × ℕ × List (ℕ × ℚ) :=
  FetchHandler.getLoop cfg oracle url ctx none 0 cfg.max_retries

/-! ## Python `str`/`repr` rendering (used by `str(...)` casts and the
substring-style dimension filter) -/

/-- The ASCII single-quote character used by Python `repr` of strings. -/
def quoteS : String := String.singleton (Char.ofNat 39)

/-- Python `repr(v)`. -/
def pyRepr : Value → String
  | .vnull => "None"
  | .vstr s => quoteS ++ s ++ quoteS
  | .vint n => toString n
  | .vlist l => "[" ++ String.intercalate ", " (l.attach.map fun ⟨v, _⟩ => pyRepr v) ++ "]"
  | .vdict d =>
    "\x7b" ++
      String.intercalate ", "
        (d.attach.map fun ⟨kv, _⟩ => quoteS ++ kv.1 ++ quoteS ++ ": " ++ pyRepr kv.2) ++
    "\x7d"
decreasing_by
  all_goals
    rename_i hmem
    have h := List.sizeOf_lt_of_mem hmem
    try obtain ⟨k, v⟩ := kv
    simp_all
    omega

/-- Python `str(v)` (`str` of a string is itself; containers render as `repr`). -/
def pyStrV : Value → String
  | .vnull => "None"
  | .vstr s => s
  | .vint n => toString n
  | v => pyRepr v

/-- Expression `str(record.get(k))` — `str(None)` is `"None"`. -/
def pyStrOpt : Option Value → String
  | none => "None"
  | some v => pyStrV v

/-! ## RecordFlattener (`un_sdg_fetch.py`, lines 117–126) -/

/-- Assignment `d[k] = v` on a Python dict: replace in place if the key exists, else
append. -/
def setK (d : RecD) (k : String) (v : Value) : RecD :=
  match d with
  | [] => [(k, v)]
  | (k', v') :: d' => if k' = k then (k', v) :: d' else (k', v') :: setK d' k v

/-- Method `d.update(es)`: apply `setK` for each entry of `es` in order. -/
def updateD (d : RecD) (es : RecD) : RecD :=
  es.foldl (fun acc kv => setK acc kv.1 kv.2) d

/-- One record through the flattening loop:
`flat_rec = {k: v for k, v in record.items() if k != "dimensions"}`, then
`flat_rec.update(dims)` when `dims` is a non-empty dict. -/
def flattenRec (record : RecD) : RecD :=
  let flat := record.filter fun kv => kv.1 ≠ "dimensions"
  match lookupD record "dimensions" with
  | some (.vdict dims) => if dims.isEmpty then flat else updateD flat dims
  | _ => flat

/-- The nested `dimensions` mapping (when present and a non-empty dict) does
not itself bind the key `"dimensions"`. -/
def dimsOk (record : RecD) : Bool :=
  match lookupD record "dimensions" with
  | some (.vdict dims) => (lookupD dims "dimensions").isNone
  | _ => true

/-- Python dict equality `==`: both dicts associate the same value to every
key (order-insensitive). -/
def PyEqD (d₁ d₂ : RecD) : Prop :=
  ∀ k, lookupD d₁ k = lookupD d₂ k

/-! ## Country/dimension filtering (`un_sdg_fetch.py`, lines 127–146) -/

/-- Expression `str(record.get("geoAreaCode", ""))`. -/
def geoCodeStr (record : RecD) : String :=
  match lookupD record "geoAreaCode" with
  | none => ""
  | some v => pyStrV v

/-- Expression `str(list(record.values()))`. -/
def valuesRepr (record : RecD) : String :=
  pyRepr (.vlist (record.map Prod.snd))

/-- Whether `needle` matches the front of `hay`. -/
def leadMatch : List Char → List Char → Bool
  | [], _ => true
  | _ :: _, [] => false
  | a :: as, b :: bs => a == b && leadMatch as bs

/-- Whether `needle` occurs contiguously inside `hay`. -/
def midMatch (needle hay : List Char) : Bool :=
  leadMatch needle hay ||
    match hay with
    | [] => false
    | _ :: t => midMatch needle t

/-- Substring containment (`f_val in record_values`). -/
def strContains (hay needle : String) : Bool :=
  midMatch needle.toList hay.toList

/-- The post-accumulation filter of `fetch_indicator_data`: the country filter
applies only when `valid_countries` is non-empty, the permissive
substring-style dimension filter only when `dimension_filters` is truthy
(a non-empty list was passed). -/
def filterRecords (valid : Finset String) (dimensionFilters : Option (List String))
    (data : List RecD) : List RecD :=
  data.filter fun record =>
    let keep₁ : Bool := if valid.Nonempty then decide (geoCodeStr record ∈ valid) else true
    if keep₁ && !(dimensionFilters.getD []).isEmpty then
      (dimensionFilters.getD []).any fun fv => strContains (valuesRepr record) fv
    else keep₁

/-! ## GeoCodeResolver (`un_sdg_fetch.py`, `_get_country_codes`, lines 235–268) -/

mutual
/-- One node of the GeoArea tree: its `type` field, its `geoAreaCode` field and
its `children` array (a missing, null or non-list `children` behaves exactly
like an empty one, so it is folded into `GeoForest.nil`). -/
inductive GeoNode where
  | mk (ty : Option Value) (code : Option Value) (children : GeoForest)

/-- A list of GeoArea tree nodes. -/
inductive GeoForest where
  | nil
  | cons (n : GeoNode) (f : GeoForest)
end

/-- The `type` field of a node. -/
def GeoNode.ty : GeoNode → Option Value
  | .mk t _ _ => t

/-- The `geoAreaCode` field of a node. -/
def GeoNode.code : GeoNode → Option Value
  | .mk _ c _ => c

/-- The `children` array of a node. -/
def GeoNode.children : GeoNode → GeoForest
  | .mk _ _ f => f

/-- Test `node.get("type") == "Country"`. -/
def isCountryTy : Option Value → Bool
  | some (.vstr s) => s = "Country"
  | _ => false

mutual
/-- Helper `_traverse`: collect `str(node.get("geoAreaCode"))` of every node whose
`type` is `"Country"`, descending into children. -/
def nodeCountryCodes : GeoNode → List String
  | .mk t c ch => (if isCountryTy t then [pyStrOpt c] else []) ++ forestCountryCodes ch

/-- Helper `_traverse` over a list of nodes. -/
def forestCountryCodes : GeoForest → List String
  | .nil => []
  | .cons n f => nodeCountryCodes n ++ forestCountryCodes f
end

mutual
/-- All nodes of a tree, the root included. -/
def nodeAll : GeoNode → List GeoNode
  | .mk t c ch => .mk t c ch :: forestAll ch

/-- All nodes of a forest. -/
def forestAll : GeoForest → List GeoNode
  | .nil => []
  | .cons n f => nodeAll n ++ forestAll f
end

/-- Method `_get_country_codes`: on success traverse every root node and return the
set of collected codes; on any failure (transport or parse) log a warning and
return the empty set. -/
def getCountryCodes (fetched : Except PyErr GeoForest) : Finset String :=
  match fetched with
  | .error _ => ∅
  | .ok forest => (forestCountryCodes forest).toFinset

/-! ## PaginatedFetchStrategy — UN SDG (`un_sdg_fetch.py`, lines 52–115)

The per-page inner retry block (lines 62–92) either yields the decoded JSON
envelope or raises after its retries; the page oracle below returns exactly
that outcome per page number. -/

/-- The `{data, totalPages, totalElements}` envelope of the dimensioned API.
Other keys of the response dict are not read by the loop. -/
structure Envelope where
  data : Option (List RecD)
  totalPages : Option ℕ
  totalElements : Option ℕ

/-- Test `if not data or len(data) == 0` — the decoded dict is falsy iff it binds
none of the modelled keys. -/
def Envelope.truthy (e : Envelope) : Bool :=
  e.data.isSome || e.totalPages.isSome || e.totalElements.isSome

/-- Loop over pages 2.. of the accumulation loop.  `acc?` is `all_data["data"]` —
`none` when the page-1 envelope had no `data` key, in which case the
`all_data["data"].extend(...)` of the next page raises `KeyError`.  The loop
breaks on a falsy envelope and otherwise extends the accumulator, so it is
driven by the remaining page numbers `2, …, totalPages`. -/
def unsdgRest (pages : ℕ → Except PyErr Envelope) (acc? : Option (List RecD)) :
    List ℕ → Except PyErr (List RecD)
  | [] => .ok (acc?.getD [])
  | p :: ps =>
    match pages p with
    | .error e => .error e
    | .ok env =>
      if !env.truthy then .ok (acc?.getD [])
      else
        match acc? with
        | none => .error .keyError
        | some acc => unsdgRest pages (some (acc ++ (env.data.getD []))) ps

/-- The accumulation phase of `fetch_indicator_data` (driver starts at page 1):
page 1 establishes `all_data` and `totalPages` (`data.get("totalPages", 1)`),
pages 2‥`totalPages` extend `all_data["data"]`, and the loop stops as soon as
`page >= totalPages`.  Returns the accumulated record list
(`all_data.get("data", [])`). -/
def unsdgAccumulate (pages : ℕ → Except PyErr Envelope) : Except PyErr (List RecD) :=
  match pages 1 with
  | .error e => .error e
  | .ok env₁ =>
    if !env₁.truthy then .ok []
    else
      let totalPages := env₁.totalPages.getD 1
      if totalPages ≤ 1 then .ok (env₁.data.getD [])
      else unsdgRest pages env₁.data (List.range' 2 (totalPages - 1))

/-! ## PaginatedFetchStrategy — World Bank (`world_bank_fetch.py`, lines 74–114) -/

/-- One `[metadata, data]` payload: the metadata's `pages` field and the data
array.  `none` models a payload that is not a 2-element list (the loop breaks). -/
abbrev WbPayload := Option (Option ℕ × List RecD)

/-- The `fetch_indicator` page loop.  Note that the stop test
`page >= meta.get("pages", 1)` re-reads `pages` from the **current** page's
metadata on every iteration.  `fuel` bounds the iterations so the function is
total; `none` signals fuel exhaustion (never reached in any run proved about). -/
def wbLoop (payload : ℕ → WbPayload) : ℕ → ℕ → List RecD → Option (List RecD)
  | 0, _, _ => none
  | fuel + 1, page, out =>
    match payload page with
    | none => some out
    | some (meta, data) =>
      let out := out ++ data
      if meta.getD 1 ≤ page then some out
      else wbLoop payload fuel (page + 1) out

/-- Method `WorldBankClient.fetch_indicator`, starting at page 1 with an empty
accumulator. -/
def wbFetchIndicator (payload : ℕ → WbPayload) (fuel : ℕ) : Option (List RecD) :=
  wbLoop payload fuel 1 []

/-! ## DimensionFetchStrategy -/

/-- Modelled from the spec: `UNSDGFetcher.fetch_indicator_by_dimension` is
invoked from `fetch_data.py` (lines 140–151) but its definition is not among
the sources.  Per §4.5, it iterates each dimension value independently, runs an
inner paginated fetch per value, concatenates the per-value results in
iteration order, and a failure for one value is logged and skipped rather than
aborting the remaining values. -/
def fetchByDimension (fetchOne : String → Except PyErr (List RecD)) :
    List String → List RecD
  | [] => []
  | v :: vs =>
    (match fetchOne v with
     | .ok rs => rs
     | .error _ => []) ++ fetchByDimension fetchOne vs

/-- Effectful map over `Except` written out (used by the normalizers whose row
construction can raise). -/
def mapExcept (f : α → Except PyErr β) : List α → Except PyErr (List β)
  | [] => .ok []
  | a :: l =>
    match f a with
    | .error e => .error e
    | .ok b =>
      match mapExcept f l with
      | .error e => .error e
      | .ok bs => .ok (b :: bs)

/-! ## `pandas.sort_values` keys

A cell of an object column is ordered by an encoding into a lexicographic
product (constructor tag, string part, integer part); a null cell sorts after
every value (`na_position="last"`, the pandas default used throughout). -/

/-- Encoding of a raw cell value for ordering purposes. -/
abbrev EncV := ℕ ×ₗ String ×ₗ Int

/-- Order encoding of one value: same-type values compare as in Python
(strings lexicographically, integers numerically). -/
def encV : Value → EncV
  | .vnull => toLex (0, toLex ("", 0))
  | .vint n => toLex (1, toLex ("", n))
  | .vstr s => toLex (2, toLex (s, 0))
  | .vlist _ => toLex (3, toLex ("", 0))
  | .vdict _ => toLex (4, toLex ("", 0))

/-- Key of an object-column cell, null last. -/
def cellKey (o : Option Value) : WithTop EncV :=
  match o with
  | none => ⊤
  | some v => (encV v : EncV)

/-- Key of an `Int64` year cell, null last. -/
def yearKey (y : Option Int) : WithTop Int :=
  match y with
  | none => ⊤
  | some n => (n : Int)

/-- Three-column ascending lexicographic sort key (two object columns and the
year column). -/
def key3 (a b : Option Value) (c : Option Int) :
    WithTop EncV ×ₗ WithTop EncV ×ₗ WithTop Int :=
  toLex (cellKey a, toLex (cellKey b, yearKey c))

/-- Three object columns, all ascending. -/
def key3v (a b c : Option Value) :
    WithTop EncV ×ₗ WithTop EncV ×ₗ WithTop EncV :=
  toLex (cellKey a, toLex (cellKey b, cellKey c))

/-! ## SourceNormalizer — UN SDG (`un_sdg_clean.py`) -/

/-- One entry of `unsdg_indicator_classes.yaml`: the dimension field and the
class-code → class-name table used by `UNSDGCleaner`. -/
structure ClassEntry where
  dimension_field : Option String
  classes : List (String × Value)

/-- Assoc-list lookup with string keys (Python dict `get`). -/
def lookupA (l : List (String × α)) (k : String) : Option α :=
  match l with
  | [] => none
  | (k', v) :: l' => if k' = k then some v else lookupA l' k

/-- Python `x[0]` on the raw `indicator` field. -/
def pyIndex0 : Value → Except PyErr Value
  | .vlist (v :: _) => .ok v
  | .vlist [] => .error .indexError
  | .vstr s => if s.isEmpty then .error .indexError else .ok (.vstr (s.take 1))
  | _ => .error .typeError

/-- Expression `record.get("attributes", \x7b\x7d).get("Nature")`. -/
def getAttrNature (r : RecD) : Except PyErr (Option Value) :=
  match lookupD r "attributes" with
  | none => .ok none
  | some (.vdict d) => .ok (normOpt (lookupD d "Nature"))
  | some _ => .error .attributeError

/-- The `class_code`/`class_name` extraction of `UNSDGCleaner.clean_data`
(lines 65–89): only for a truthy string indicator registered in the class
table, reading the configured dimension field. -/
def classFields (classes : List (String × ClassEntry)) (r : RecD) (indicV : Value) :
    Option Value × Option Value :=
  match indicV with
  | .vstr s =>
    if s ≠ "" then
      match lookupA classes s with
      | some entry =>
        match entry.dimension_field with
        | some df =>
          if df ≠ "" then
            let classCode := lookupD r (if df = "series_code" then "series" else df)
            let className :=
              match classCode with
              | some cv =>
                if pyTruthy cv then
                  match cv with
                  | .vstr cs => normOpt (lookupA entry.classes cs)
                  | _ => none
                else none
              | none => none
            (normOpt classCode, className)
          else (none, none)
        | none => (none, none)
      | none => (none, none)
    else (none, none)
  | _ => (none, none)

/-- One normalized UN SDG row (`year` and `value` already column-coerced:
`to_numeric(errors="coerce")`, year `astype("Int64")`). -/
structure URow where
  country_code : Option Value
  country : Option Value
  year : Option Int
  value : Option ℚ
  indicator : Option Value
  series_code : Option Value
  nature : Option Value
  reporting_type : Option Value
  age : Option Value
  sex : Option Value
  location : Option Value
  class_code : Option Value
  class_name : Option Value
deriving Repr

/-- One record through the row-building loop of `UNSDGCleaner.clean_data`,
`indicator = record.get("indicator", [None])[0]` included. -/
def mkURow (classes : List (String × ClassEntry)) (r : RecD) : Except PyErr URow :=
  match pyIndex0 ((lookupD r "indicator").getD (.vlist [.vnull])) with
  | .error e => .error e
  | .ok indicV =>
    match getAttrNature r with
    | .error e => .error e
    | .ok nature =>
      let fields := classFields classes r indicV
      .ok ⟨normOpt (lookupD r "geoAreaCode"),
           normOpt (lookupD r "geoAreaName"),
           toInt64 (toNumeric (lookupD r "timePeriodStart")),
           toNumeric (lookupD r "value"),
           normOpt (some indicV),
           normOpt (lookupD r "series"),
           nature,
           normOpt (lookupD r "Reporting Type"),
           normOpt (lookupD r "Age"),
           normOpt (lookupD r "Sex"),
           normOpt (lookupD r "Location"),
           fields.1, fields.2⟩

/-- Key for `sort_values(["country", "indicator", "year"], ascending=[True, True, True])`. -/
def uLe (a b : URow) : Prop :=
  key3 a.country a.indicator a.year ≤ key3 b.country b.indicator b.year

instance : DecidableRel uLe := fun a b =>
  inferInstanceAs (Decidable (key3 a.country a.indicator a.year ≤ _))

instance : IsTotal URow uLe := ⟨fun _ _ => le_total _ _⟩

instance : IsTrans URow uLe := ⟨fun _ _ _ hab hbc => le_trans hab hbc⟩

/-- Method `UNSDGCleaner.clean_data`: empty input short-circuits to an empty frame;
otherwise build the rows, coerce `value`/`year`, and sort ascending by
`(country, indicator, year)`.  No rows are dropped. -/
def unsdgCleanData (classes : List (String × ClassEntry)) (records : List RecD) :
    Except PyErr (List URow) :=
  if records.isEmpty then .ok []
  else
    match mapExcept (mkURow classes) records with
    | .error e => .error e
    | .ok rows => .ok (List.insertionSort uLe rows)

/-! ## SourceNormalizer — ND-GAIN (`nd_gain_clean.py`) -/

/-- One melted ND-GAIN row. -/
structure NRow where
  country_code : Option Value
  country : Option Value
  indicator : Option Value
  year : Option Int
  value : Option ℚ
deriving Repr

/-- Column order of `pd.DataFrame(list_of_dicts)`: keys in first-appearance
order. -/
def colsOf (records : List RecD) : List String :=
  records.foldl
    (fun acc r => r.foldl (fun acc kv => if kv.1 ∈ acc then acc else acc ++ [kv.1]) acc)
    []

/-- Key for `sort_values(["country_code", "indicator", "year"])`. -/
def nLe (a b : NRow) : Prop :=
  key3 a.country_code a.indicator a.year ≤ key3 b.country_code b.indicator b.year

instance : DecidableRel nLe := fun a b =>
  inferInstanceAs (Decidable (key3 a.country_code a.indicator a.year ≤ _))

instance : IsTotal NRow nLe := ⟨fun _ _ => le_total _ _⟩

instance : IsTrans NRow nLe := ⟨fun _ _ _ hab hbc => le_trans hab hbc⟩

/-- Reshape `melt(id_vars=["ISO3", "Name", "indicator"], value_vars=year_columns)`:
the melted frame stacks one block per year column, each block in record
order; absent cells are null. -/
def ndgainMelt (records : List RecD) (yearCols : List String) : List NRow :=
  (yearCols.map fun y =>
    records.map fun r =>
      NRow.mk (normOpt (lookupD r "ISO3")) (normOpt (lookupD r "Name"))
        (normOpt (lookupD r "indicator")) (toInt64 (parseNum y))
        (toNumeric (lookupD r y))).flatten

/-- Method `NDGAINClean.clean_data`: wide-to-long melt over the digit-named columns,
type coercion, `dropna(subset=["value"])`, then sort ascending by
`(country_code, indicator, year)`.  `melt` raises `KeyError` when an id
column is absent from the frame. -/
def ndgainCleanData (records : List RecD) : Except PyErr (List NRow) :=
  if records.isEmpty then .ok []
  else
    let cols := colsOf records
    if cols.contains "ISO3" && cols.contains "Name" && cols.contains "indicator" then
      let yearCols := cols.filter fun c =>
        !(["ISO3", "Name", "indicator"].contains c) && isDigitStr c
      .ok (List.insertionSort nLe
        ((ndgainMelt records yearCols).filter fun row => row.value.isSome))
    else .error .keyError

/-! ## SourceNormalizer — World Bank (`world_bank_clean.py`) -/

/-- One World Bank row.  `year` is `int(date)` when `str(date)` is all digits
and the raw `date` value otherwise; `value` is kept raw — this cleaner never
coerces or drops. -/
structure WRow where
  country : Option Value
  iso3 : Option Value
  indicator_code : Option Value
  indicator : Option Value
  year : Option Value
  value : Option Value
deriving Repr

/-- Python `a or b` (first operand when truthy, else the second). -/
def pyOr (a b : Option Value) : Option Value :=
  match a with
  | some v => if pyTruthy v then some v else b
  | none => b

/-- Expression `(rec.get(k) or \x7b\x7d).get(k2)`. -/
def orEmptyGet (o : Option Value) (k : String) : Except PyErr (Option Value) :=
  match pyOr o (some (.vdict [])) with
  | some (.vdict d) => .ok (normOpt (lookupD d k))
  | _ => .error .attributeError

/-- One record through the row loop of `WorldBankCleaner.clean_data`. -/
def mkWRow (r : RecD) : Except PyErr WRow :=
  match orEmptyGet (lookupD r "country") "value" with
  | .error e => .error e
  | .ok country =>
    match orEmptyGet (lookupD r "indicator") "id" with
    | .error e => .error e
    | .ok indCode =>
      match orEmptyGet (lookupD r "indicator") "value" with
      | .error e => .error e
      | .ok ind =>
        let dateS := pyStrOpt (lookupD r "date")
        let year : Option Value :=
          if isDigitStr dateS then some (.vint (digitsToNat dateS))
          else normOpt (lookupD r "date")
        .ok ⟨country, normOpt (lookupD r "countryiso3code"), indCode, ind, year,
             normOpt (lookupD r "value")⟩

/-- Key for `sort_values(["indicator-code", "iso3", "year"], ascending=[True, True, False],
na_position="last")`: the third column descending, nulls still last. -/
def wLe (a b : WRow) : Prop :=
  (toLex (cellKey a.indicator_code, toLex (cellKey a.iso3,
      (match a.year with
       | none => (⊤ : WithTop EncVᵒᵈ)
       | some v => (OrderDual.toDual (encV v) : EncVᵒᵈ)))) :
        WithTop EncV ×ₗ WithTop EncV ×ₗ WithTop EncVᵒᵈ) ≤
  toLex (cellKey b.indicator_code, toLex (cellKey b.iso3,
      (match b.year with
       | none => (⊤ : WithTop EncVᵒᵈ)
       | some v => (OrderDual.toDual (encV v) : EncVᵒᵈ))))

instance : DecidableRel wLe := fun a b =>
  inferInstanceAs (Decidable ((_ : WithTop EncV ×ₗ WithTop EncV ×ₗ WithTop EncVᵒᵈ) ≤ _))

instance : IsTotal WRow wLe := ⟨fun _ _ => le_total _ _⟩

instance : IsTrans WRow wLe := ⟨fun _ _ _ hab hbc => le_trans hab hbc⟩

/-- Method `WorldBankCleaner.clean_data`: build the rows (no coercion, no dropping)
and sort by `(indicator-code, iso3, year)` with `year` descending. -/
def wbCleanData (records : List RecD) : Except PyErr (List WRow) :=
  match mapExcept mkWRow records with
  | .error e => .error e
  | .ok rows => .ok (List.insertionSort wLe rows)

/-- The sort key the claim asserts for every normalizer: ascending
`(country, indicator, year)`. -/
def wbClaimLe (a b : WRow) : Prop :=
  key3v a.country a.indicator a.year ≤ key3v b.country b.indicator b.year

/-! ## SourceNormalizer — HDR (`hdr_clean.py`)

The pass-through of unrecognized extra keys into extra columns (lines 50–54)
is not modelled: no claim mentions those columns and they do not affect the
standard ones. -/

/-- One HDR row (standard columns). -/
structure HRow where
  country_code : Option Value
  country : Option Value
  indicator : Option Value
  year : Option Int
  value : Option ℚ
deriving Repr

/-- Expression `a or b or c`. -/
def pyOr3 (a b c : Option Value) : Option Value :=
  pyOr (pyOr a b) c

/-- One record through the row loop of `HDRCleaner.clean_data`, with the
columnwise coercions applied. -/
def mkHRow (r : RecD) : HRow :=
  ⟨normOpt (pyOr3 (lookupD r "iso3") (lookupD r "countryCode") (lookupD r "ISO3")),
   normOpt (pyOr3 (lookupD r "country") (lookupD r "countryName") (lookupD r "Country")),
   normOpt (lookupD r "indicator"),
   toInt64 (toNumeric (lookupD r "year")),
   toNumeric (pyOr3 (lookupD r "value") (lookupD r "index") (lookupD r "Value"))⟩

/-- Key for `sort_values(["country", "indicator", "year"], ascending=[True, True, True])`. -/
def hLe (a b : HRow) : Prop :=
  key3 a.country a.indicator a.year ≤ key3 b.country b.indicator b.year

instance : DecidableRel hLe := fun a b =>
  inferInstanceAs (Decidable (key3 a.country a.indicator a.year ≤ _))

instance : IsTotal HRow hLe := ⟨fun _ _ => le_total _ _⟩

instance : IsTrans HRow hLe := ⟨fun _ _ _ hab hbc => le_trans hab hbc⟩

/-- Method `HDRCleaner.clean_data`: build rows, coerce, `dropna(subset=["value"])`,
sort ascending by `(country, indicator, year)`. -/
def hdrCleanData (records : List RecD) : List HRow :=
  if records.isEmpty then []
  else
    List.insertionSort hLe ((records.map mkHRow).filter fun row => row.value.isSome)

/-! ## SourceNormalizer — OWID (`owid_clean.py`)

The frame is modelled as its column-label list plus one association list per
row (a missing key is a null cell, as elsewhere). -/

/-- Python `s.lower()` (the ASCII column names the cleaner probes). -/
def lowerS (s : String) : String :=
  String.mk (s.toList.map Char.toLower)

/-- Column-name detection loop of `OWIDCleaner.clean_data` (lines 52–61): one
`elif` bucket per role, the last matching column of a bucket wins; the result
is `(entity_col, code_col, year_col, value_col)`. -/
def owidDetect (cols : List String) :
    Option String × Option String × Option String × Option String :=
  cols.foldl
    (fun st col =>
      let l := lowerS col
      if l = "entity" ∨ l = "country" ∨ l = "country_name" ∨ l = "name" then
        (some col, st.2.1, st.2.2.1, st.2.2.2)
      else if l = "code" ∨ l = "iso3" ∨ l = "iso_code" ∨ l = "country_code" then
        (st.1, some col, st.2.2.1, st.2.2.2)
      else if l = "year" ∨ l = "date" then
        (st.1, st.2.1, some col, st.2.2.2)
      else if l = "value" ∨ l = "state_capacity_index" then
        (st.1, st.2.1, st.2.2.1, some col)
      else st)
    (none, none, none, none)

/-- Wide-format fallback of lines 66–67: the columns other than the detected
entity/code columns whose name with dots removed is all digits
(`str(col).replace(".", "").isdigit()`). -/
def owidYearCols (cols : List String) (entity code : Option String) : List String :=
  cols.filter fun c =>
    decide (some c ≠ entity) && decide (some c ≠ code) &&
      isDigitStr (String.mk (c.toList.filter fun ch => ch ≠ '.'))

/-- One melted cell: key `dst` bound to the record's `src` cell when present
(a missing cell stays a null cell). -/
def meltCell (r : RecD) (src dst : String) : RecD :=
  match lookupD r src with
  | some v => [(dst, v)]
  | none => []

/-- Reshape `melt(id_vars, value_vars=year_columns, var_name="year",
value_name="value")` — one block per year column, each block in record
order, id columns keeping their original labels. -/
def owidMelt (records : List RecD) (idVars : List String) (yearCols : List String) :
    List RecD :=
  (yearCols.map fun y =>
    records.map fun r =>
      idVars.flatMap (fun c => meltCell r c c) ++ [("year", Value.vstr y)] ++
        meltCell r y "value").flatten

/-- The simultaneous column rename of lines 83–97: the detected entity column
to `country`, the code column to `country_code`, the year column to `year`
(an identity when it is already called `year`); the value column is never
renamed. -/
def owidRenameKey (entity code yearC : Option String) (k : String) : String :=
  if some k = entity then "country"
  else if some k = code then "country_code"
  else if some k = yearC then "year"
  else k

/-- Whether a column of the current frame has numeric dtype
(`select_dtypes(include=["number"])`): every present cell is a number (the
integers of the modelled data; a stored `None` or a string makes the dtype
object). -/
def numericCol (rows : List RecD) (c : String) : Bool :=
  rows.all fun r =>
    match lookupD r c with
    | none => true
    | some (.vint _) => true
    | some _ => false

/-- Column assignment `df[dst] = df.get(src, default)` (with `src = none` it
is the plain broadcast `df[dst] = default`): copy the source column when the
frame has it, else broadcast the default value to every row. -/
def owidAssignFrom (cols : List String) (rows : List RecD) (dst : String)
    (src : Option String) (dflt : Value) : List String × List RecD :=
  let rows' := rows.map fun r =>
    match src with
    | some sc =>
      if cols.contains sc then
        match lookupD r sc with
        | some v => setK r dst v
        | none => r
      else setK r dst dflt
    | none => setK r dst dflt
  (if cols.contains dst then cols else cols ++ [dst], rows')

/-- Computation of `indicator_name` (lines 109–111): the default
`state_capacity_index`, unless the detected value column has a name other
than `value`/`val`, in which case its lower-cased name with spaces turned
into underscores. -/
def owidIndicatorName (valueC : Option String) : String :=
  match valueC with
  | some vc =>
    if lowerS vc ≠ "value" ∧ lowerS vc ≠ "val" then
      String.mk ((lowerS vc).toList.map fun ch => if ch = ' ' then '_' else ch)
    else "state_capacity_index"
  | none => "state_capacity_index"

/-- One cleaned OWID row: the object cells (every column except the coerced
pair) plus the coerced `year` and `value`. -/
structure ORow where
  cells : RecD
  year : Option Int
  value : Option ℚ
deriving Repr

/-- Key for `sort_values([c for c in ["country", "indicator", "year"] if c in
df.columns], ascending=[True, ...])`: a key column absent from the frame is a
constant null cell on every row, so the stable sort under the full three-part
key produces the same order as sorting by the present columns only. -/
def oLe (a b : ORow) : Prop :=
  key3 (normOpt (lookupD a.cells "country")) (normOpt (lookupD a.cells "indicator")) a.year ≤
    key3 (normOpt (lookupD b.cells "country")) (normOpt (lookupD b.cells "indicator")) b.year

instance : DecidableRel oLe := fun a b =>
  inferInstanceAs
    (Decidable (key3 (normOpt (lookupD a.cells "country")) (normOpt (lookupD a.cells "indicator")) a.year ≤ _))

instance : IsTotal ORow oLe := ⟨fun _ _ => le_total _ _⟩

instance : IsTrans ORow oLe := ⟨fun _ _ _ hab hbc => le_trans hab hbc⟩

/-- The frame of `OWIDCleaner.clean_data` just before the `indicator`
assignment of line 125: column detection, the wide-to-long fallback, the
rename, the required-column defaults and the value-column fallback.  Returns
the column labels, the rows, and `indicator_name`. -/
def owidPrepare (records : List RecD) : List String × List RecD × String :=
  let cols₀ := colsOf records
  let det := owidDetect cols₀
  let entity := det.1
  let code := det.2.1
  let st₁ : List String × List RecD × Option String × Option String :=
    match det.2.2.1 with
    | some yc => (cols₀, records, some yc, det.2.2.2)
    | none =>
      let ycols := owidYearCols cols₀ entity code
      if ycols.isEmpty then (cols₀, records, none, det.2.2.2)
      else
        let idVars := entity.toList ++ code.toList
        (idVars ++ ["year", "value"], owidMelt records idVars ycols, some "year",
          some "value")
  let ren := owidRenameKey entity code st₁.2.2.1
  let cols₂ := st₁.1.map ren
  let rows₂ := st₁.2.1.map fun r => r.map fun kv => (ren kv.1, kv.2)
  let st₃ :=
    if !cols₂.contains "country" && entity.isSome then
      owidAssignFrom cols₂ rows₂ "country" entity (.vstr "Unknown")
    else (cols₂, rows₂)
  let st₄ :=
    if !st₃.1.contains "country_code" then
      owidAssignFrom st₃.1 st₃.2 "country_code" code (.vstr "")
    else st₃
  let st₅ :=
    if !st₄.1.contains "value" then
      match st₄.1.filter (fun c => numericCol st₄.2 c &&
          !(["year", "country_code"].contains c)) with
      | nc :: _ => owidAssignFrom st₄.1 st₄.2 "value" (some nc) .vnull
      | [] => owidAssignFrom st₄.1 st₄.2 "value" none .vnull
    else st₄
  (if st₅.1.contains "indicator" then st₅.1 else st₅.1 ++ ["indicator"], st₅.2,
    owidIndicatorName st₁.2.2.2)

/-- Method `OWIDCleaner.clean_data` (lines 36–148): prepare the frame, assign
the constant `indicator` column (line 125, overwriting any existing one),
coerce `value` and — when the frame has one — `year`, apply
`dropna(subset=["value"])`, and sort.  The column reorder of lines 136–138
does not change row contents and is not modelled. -/
def owidCleanData (records : List RecD) : List ORow :=
  if records.isEmpty then []
  else
    let prep := owidPrepare records
    let hasYear := prep.1.contains "year"
    List.insertionSort oLe
      (((prep.2.1.map fun r => setK r "indicator" (.vstr prep.2.2)).map fun r =>
        ORow.mk (r.filter fun kv => kv.1 ≠ "year" ∧ kv.1 ≠ "value")
          (if hasYear then toInt64 (toNumeric (lookupD r "year")) else none)
          (toNumeric (lookupD r "value"))).filter fun row => row.value.isSome)

/-! ## Predicates and fixtures used by the statements below -/

/-- Whether a value is not Python `None`. -/
def notNullV : Value → Bool
  | .vnull => false
  | _ => true

/-- A raw UN SDG record carries a usable indicator: a non-empty `indicator`
list whose first element is not null. -/
def uIndicOk (r : RecD) : Bool :=
  match lookupD r "indicator" with
  | some (.vlist (v :: _)) => notNullV v
  | _ => false

/-- A raw HDR record carries a non-null `indicator` field. -/
def hIndicOk (r : RecD) : Bool :=
  match lookupD r "indicator" with
  | some v => notNullV v
  | none => false

/-- A `FetchHandlerConfig` with the default knobs and `max_retries = n`. -/
def cfgN (n : ℕ) : FetchHandlerConfig :=
  ⟨60, n, 2, 120, 2, 1/2, [429, 500, 502, 503, 504]⟩

/-- An endpoint that answers 503 to every attempt. -/
def oracle503 : ℕ → AttemptOutcome := fun _ => .status 503

/-- One mock record per dimension value, tagged `indicator="X"`. -/
def recX (v : String) : RecD :=
  [("indicator", .vlist [.vstr "X"]), ("Sex", .vstr v)]

/-- A mock single-page endpoint for one dimension value: page 1 delivers one
record and `totalPages = 1`. -/
def pagesFor (v : String) : ℕ → Except PyErr Envelope := fun p =>
  if p = 1 then .ok ⟨some [recX v], some 1, some 1⟩ else .error .transport

/-- The inner paginated fetch of one dimension value, run against the mock
endpoint. -/
def fetchOneX (v : String) : Except PyErr (List RecD) :=
  unsdgAccumulate (pagesFor v)

/-- A one-field mock record. -/
def recI (i : Int) : RecD := [("id", .vint i)]

/-- A 3-page World Bank `[metadata, data]` sequence with 2, 2 and 1 records
whose `pages` count (3) appears only in the page-1 metadata. -/
def wbPages3 : ℕ → WbPayload := fun p =>
  if p = 1 then some (some 3, [recI 1, recI 2])
  else if p = 2 then some (none, [recI 3, recI 4])
  else if p = 3 then some (none, [recI 5])
  else none

/-- A raw UN SDG record with `value="N/A"` and `timePeriodStart="2020"`. -/
def recNA : RecD :=
  [("geoAreaCode", .vstr "4"), ("geoAreaName", .vstr "Afg"), ("timePeriodStart", .vstr "2020"),
   ("value", .vstr "N/A"), ("indicator", .vlist [.vstr "X"])]

/-- The row `recNA` normalizes to: `value` null, `year` 2020, retained. -/
def rowNA : URow :=
  ⟨some (.vstr "4"), some (.vstr "Afg"), some 2020, none, some (.vstr "X"),
   none, none, none, none, none, none, none, none⟩

/-- A raw World Bank record for a given `date`, with fixed country and
indicator objects. -/
def rW (d : String) : RecD :=
  [("country", .vdict [("value", .vstr "A")]), ("countryiso3code", .vstr "AAA"),
   ("indicator", .vdict [("id", .vstr "I"), ("value", .vstr "Ind")]),
   ("date", .vstr d), ("value", .vint 1)]

/-- The World Bank row `rW` normalizes to for year `n`. -/
def wRowD (n : Int) : WRow :=
  ⟨some (.vstr "A"), some (.vstr "AAA"), some (.vstr "I"), some (.vstr "Ind"),
   some (.vint n), some (.vint 1)⟩

/-- A wide ND-GAIN record whose single year column holds `"N/A"`. -/
def wideNA : RecD :=
  [("ISO3", .vstr "AFG"), ("Name", .vstr "Afg"), ("indicator", .vstr "vuln"),
   ("2020", .vstr "N/A")]

/-- A wide ND-GAIN record whose single year column holds `"3"`. -/
def wideOK : RecD :=
  [("ISO3", .vstr "AFG"), ("Name", .vstr "Afg"), ("indicator", .vstr "vuln"),
   ("2020", .vstr "3")]

/-- The melted ND-GAIN row `wideOK` normalizes to. -/
def nRowOK : NRow :=
  ⟨some (.vstr "AFG"), some (.vstr "Afg"), some (.vstr "vuln"), some 2020, some 3⟩

instance : DecidableRel wbClaimLe := fun a b =>
  inferInstanceAs (Decidable (key3v a.country a.indicator a.year ≤ _))

/-! # Theorems -/

/-! ## Transport lemmas -/

theorem pymin_eq_min (a b : ℚ) : pymin a b = min a b := by
  rw [pymin, min_def]

theorem getLoop_sleeps (cfg : FetchHandlerConfig) (oracle : ℕ → AttemptOutcome)
    (url ctx : String) :
    ∀ (r attempt : ℕ) (lastExc : Option AttemptOutcome) (n : ℕ) (w : ℚ),
      (n, w) ∈ (FetchHandler.getLoop cfg oracle url ctx lastExc attempt r).2.2 →
      w = FetchHandler.backoff cfg n := by
  intro r
  induction r with
  | zero =>
    intro attempt lastExc n w h
    simp [FetchHandler.getLoop] at h
  | succ r ih =>
    intro attempt lastExc n w h
    cases ho : oracle (attempt + 1)
    case status s =>
      simp only [FetchHandler.getLoop, ho] at h
      by_cases hs : s ∈ cfg.retry_on_status
      · rw [if_pos hs] at h
        rcases List.mem_cons.mp h with heq | hmem
        · obtain ⟨hn, hw⟩ := Prod.mk.injEq .. ▸ heq
          subst hn; exact hw
        · exact ih _ _ _ _ hmem
      · rw [if_neg hs] at h
        by_cases h4 : 400 ≤ s <;> simp [h4] at h
    all_goals
      simp only [FetchHandler.getLoop, ho] at h
      rcases List.mem_cons.mp h with heq | hmem
      · obtain ⟨hn, hw⟩ := Prod.mk.injEq .. ▸ heq
        subst hn; exact hw
      · exact ih _ _ _ _ hmem

theorem getLoop_all503 (cfg : FetchHandlerConfig) (oracle : ℕ → AttemptOutcome)
    (url ctx : String) (hor : ∀ n, oracle n = .status 503)
    (hmem : 503 ∈ cfg.retry_on_status) :
    ∀ (r attempt : ℕ),
      (FetchHandler.getLoop cfg oracle url ctx none attempt r).1 =
        .exhausted cfg.max_retries url ctx ∧
      (FetchHandler.getLoop cfg oracle url ctx none attempt r).2.1 = attempt + r := by
  intro r
  induction r with
  | zero => intro attempt; exact ⟨rfl, rfl⟩
  | succ r ih =>
    intro attempt
    have h := ih (attempt + 1)
    simp only [FetchHandler.getLoop, hor (attempt + 1), if_pos hmem]
    exact ⟨h.1, by rw [h.2]; omega⟩

/-! ## Claim C1 -/

/-- C1.  For every retry attempt `n` (1-indexed) and every retry policy with
`maxBackoff ≥ initialBackoff`, the backoff computed by the transport before
the next retry — both the `_backoff` helper itself and every backoff sleep the
`get` retry loop actually performs — equals
`min(initialBackoff * backoffMultiplier ^ (n - 1), maxBackoff)`. -/
theorem backoff_equals_min_formula (cfg : FetchHandlerConfig)
    (hP : cfg.initial_backoff ≤ cfg.max_backoff) :
    (∀ n : ℕ, FetchHandler.backoff cfg n =
      min (cfg.initial_backoff * cfg.backoff_multiplier ^ (n - 1)) cfg.max_backoff) ∧
    (∀ (oracle : ℕ → AttemptOutcome) (url ctx : String) (n : ℕ) (w : ℚ),
      (n, w) ∈ (FetchHandler.get cfg oracle url ctx).2.2 →
      w = min (cfg.initial_backoff * cfg.backoff_multiplier ^ (n - 1)) cfg.max_backoff) := by
  refine ⟨fun n => pymin_eq_min .. , fun oracle url ctx n w h => ?_⟩
  rw [getLoop_sleeps cfg oracle url ctx _ _ _ _ _ h]
  exact pymin_eq_min ..

/-- Witness for C1: in a run of `get` against an endpoint that always answers
503 under the default policy, the backoff slept after attempt 3 is
`min(2 * 2 ^ 2, 120) = 8` seconds. -/
theorem backoff_equals_min_formula_witness :
    (8 : ℚ) = min ((cfgN 8).initial_backoff * (cfgN 8).backoff_multiplier ^ (3 - 1))
      (cfgN 8).max_backoff :=
  (backoff_equals_min_formula (cfgN 8) (by norm_num [cfgN])).2 oracle503 "u" "c" 3 8
    (by with_unfolding_all decide)

/-! ## Claim C2 -/

/-- Counterexample to C2 as stated: under the default policy restricted to 3
retries, a `get` against an endpoint that always returns 503 does terminate
after exactly `maxRetries` attempts, but the error it raises is the generic
`RequestException` (`Max retries (3) exhausted for u [ctx]`): no underlying
error is carried, because the retryable-status path never stores one — only
the context label and retry count are carried. -/
theorem retry503_error_carries_no_underlying :
    (FetchHandler.get (cfgN 3) oracle503 "u" "ctx").1 = .exhausted 3 "u" "ctx" ∧
    (FetchHandler.get (cfgN 3) oracle503 "u" "ctx").2.1 = 3 ∧
    GetResult.carriesUnderlying (FetchHandler.get (cfgN 3) oracle503 "u" "ctx").1 = false :=
  ⟨rfl, rfl, rfl⟩

/-- C2 amended.  For every retry policy that keeps 503 retryable, a `get`
against an endpoint that returns 503 on every attempt performs exactly
`maxRetries` attempts, terminates, and raises the generic retry-exhaustion
error carrying the retry count, the URL and the context label — but no
underlying error, since status-code retries never record one. -/
theorem retry503_exhausts_after_max_retries (cfg : FetchHandlerConfig)
    (oracle : ℕ → AttemptOutcome) (url ctx : String)
    (hor : ∀ n, oracle n = .status 503) (hmem : 503 ∈ cfg.retry_on_status) :
    (FetchHandler.get cfg oracle url ctx).1 = .exhausted cfg.max_retries url ctx ∧
    (FetchHandler.get cfg oracle url ctx).2.1 = cfg.max_retries ∧
    GetResult.contextOf (FetchHandler.get cfg oracle url ctx).1 = some ctx := by
  have h := getLoop_all503 cfg oracle url ctx hor hmem cfg.max_retries 0
  have h1 : (FetchHandler.get cfg oracle url ctx).1 = .exhausted cfg.max_retries url ctx := h.1
  have h2 : (FetchHandler.get cfg oracle url ctx).2.1 = 0 + cfg.max_retries := h.2
  refine ⟨h1, by omega, ?_⟩
  rw [h1]
  rfl

/-- Witness for C2 (amended): the concrete 3-retry always-503 run. -/
theorem retry503_exhausts_after_max_retries_witness :
    (FetchHandler.get (cfgN 3) oracle503 "u" "c").1 = .exhausted 3 "u" "c" ∧
    (FetchHandler.get (cfgN 3) oracle503 "u" "c").2.1 = 3 ∧
    GetResult.contextOf (FetchHandler.get (cfgN 3) oracle503 "u" "c").1 = some "c" :=
  retry503_exhausts_after_max_retries (cfgN 3) oracle503 "u" "c" (fun _ => rfl)
    (by decide)

/-! ## Claim C3 -/

theorem unsdgRest_concat (pages : ℕ → Except PyErr Envelope) (d : ℕ → List RecD)
    (tp te : ℕ → Option ℕ) :
    ∀ (k a : ℕ) (acc : List RecD),
      (∀ p, a ≤ p → p < a + k → pages p = .ok ⟨some (d p), tp p, te p⟩) →
      unsdgRest pages (some acc) (List.range' a k) =
        .ok (acc ++ (List.range' a k).flatMap d) := by
  intro k
  induction k with
  | zero => intro a acc _; simp [unsdgRest]
  | succ k ih =>
    intro a acc h
    rw [List.range'_succ]
    simp only [unsdgRest]
    rw [h a (le_refl a) (by omega)]
    simp only [Envelope.truthy, Option.isSome_some, Bool.true_or, Bool.not_true,
      Bool.false_eq_true, if_false, Option.getD_some]
    rw [ih (a + 1) (acc ++ d a) (fun p hp hp' => h p (by omega) (by omega))]
    simp [List.flatMap_cons, List.append_assoc]

/-- C3 amended.  The UN SDG paginated fetch takes `totalPages` from the page-1
response (defaulting to 1 when the field is absent), appends each page's
`data` array to the accumulator in page order, and stops as soon as
`page ≥ totalPages`; in particular a 3-page sequence with 2, 2 and 1 records
(with `totalPages` only on page 1) yields exactly those 5 records in page
order.  The World Bank paginated fetch differs: it re-reads the page count
from the metadata of **each** page, not only page 1. -/
theorem unsdg_pagination_totalPages_from_page1 (pages : ℕ → Except PyErr Envelope)
    (d : ℕ → List RecD) (tp te : ℕ → Option ℕ) (T : ℕ) :
    (pages 1 = .ok ⟨some (d 1), some T, te 1⟩ → 1 ≤ T →
      (∀ p, 2 ≤ p → p ≤ T → pages p = .ok ⟨some (d p), tp p, te p⟩) →
      unsdgAccumulate pages = .ok ((List.range' 1 T).flatMap d)) ∧
    (pages 1 = .ok ⟨some (d 1), none, te 1⟩ → unsdgAccumulate pages = .ok (d 1)) ∧
    unsdgAccumulate (fun p =>
      if p = 1 then .ok ⟨some [recI 1, recI 2], some 3, some 5⟩
      else if p = 2 then .ok ⟨some [recI 3, recI 4], none, none⟩
      else if p = 3 then .ok ⟨some [recI 5], none, none⟩
      else .ok ⟨none, none, none⟩) =
      .ok [recI 1, recI 2, recI 3, recI 4, recI 5] := by
  refine ⟨fun h1 hT hrest => ?_, fun h1 => ?_, rfl⟩
  · rw [unsdgAccumulate, h1]
    simp only [Envelope.truthy, Option.isSome_some, Bool.true_or, Bool.not_true,
      Bool.false_eq_true, if_false, Option.getD_some]
    rcases Nat.lt_or_ge 1 T with hlt | hle
    · rw [if_neg (by omega)]
      have hk : T - 1 + 1 = T := by omega
      rw [unsdgRest_concat pages d tp te (T - 1) 2 (d 1)
        (fun p hp hp' => hrest p hp (by omega))]
      have : List.range' 1 T = 1 :: List.range' 2 (T - 1) := by
        conv_lhs => rw [← hk, List.range'_succ]
      rw [this]
      simp [List.flatMap_cons]
    · rw [if_pos (by omega)]
      have hT1 : T = 1 := by omega
      subst hT1
      simp [List.range', List.flatMap_cons]
  · rw [unsdgAccumulate, h1]
    simp [Envelope.truthy]

/-- Witness for C3 (amended): a 2-page run whose page counts appear on page 1
only. -/
theorem unsdg_pagination_totalPages_from_page1_witness :
    unsdgAccumulate (fun p =>
      if p = 1 then .ok ⟨some [[("a", .vint 1)]], some 2, none⟩
      else .ok ⟨some [[("a", .vint 2)]], none, none⟩) =
      .ok [[("a", .vint 1)], [("a", .vint 2)]] := by
  have h := (unsdg_pagination_totalPages_from_page1
    (fun p =>
      if p = 1 then .ok ⟨some [[("a", .vint 1)]], some 2, none⟩
      else .ok ⟨some [[("a", .vint 2)]], none, none⟩)
    (fun p => if p = 1 then [[("a", .vint 1)]] else [[("a", .vint 2)]])
    (fun p => if p = 1 then some 2 else none) (fun _ => none) 2).1
  simpa using h (by simp) (by omega) (fun p h2 _ => by
    simp [show p ≠ 1 by omega])

/-- Counterexample to C3 as stated: the World Bank fetcher does **not** take
`totalPages` from the page-1 response.  Against a 3-page sequence with 2, 2
and 1 records whose page count (3) is provided only in page 1's metadata, it
stops after page 2 (the stop test re-reads `meta.get("pages", 1)` of page 2,
which defaults to 1) and returns 4 records instead of the claimed 5. -/
theorem wb_pagination_ignores_page1_totalPages :
    wbFetchIndicator wbPages3 10 = some [recI 1, recI 2, recI 3, recI 4] ∧
    wbFetchIndicator wbPages3 10 ≠ some [recI 1, recI 2, recI 3, recI 4, recI 5] := by
  refine ⟨rfl, fun h => ?_⟩
  rw [show wbFetchIndicator wbPages3 10 = some [recI 1, recI 2, recI 3, recI 4] from rfl] at h
  simp [recI] at h

/-! ## Claim C4 -/

/-- C4.  With no dimension filter supplied, a non-empty country-code set
retains exactly the records whose stringified geo-code is a member; with the
set `{"AFG", "USA"}` and geo-codes `"AFG"`, `"ZZZ"`, `"USA"` only the two
matching records remain; and an empty set applies no country filtering. -/
theorem country_filter_membership (valid : Finset String) (data : List RecD) :
    (valid.Nonempty →
      filterRecords valid none data =
        data.filter fun r => decide (geoCodeStr r ∈ valid)) ∧
    filterRecords ∅ none data = data ∧
    filterRecords {"AFG", "USA"} none
      [[("geoAreaCode", .vstr "AFG")], [("geoAreaCode", .vstr "ZZZ")],
       [("geoAreaCode", .vstr "USA")]] =
      [[("geoAreaCode", .vstr "AFG")], [("geoAreaCode", .vstr "USA")]] := by
  refine ⟨fun hne => ?_, ?_, rfl⟩
  · unfold filterRecords
    apply List.filter_congr
    intro r _
    simp [hne]
  · unfold filterRecords
    simp [Finset.not_nonempty_empty]

/-- Witness for C4: a two-element country-code set on a concrete record list. -/
theorem country_filter_membership_witness :
    filterRecords {"AFG"} none [[("geoAreaCode", .vstr "AFG")], [("geoAreaCode", .vstr "ZZZ")]] =
      List.filter (fun r => decide (geoCodeStr r ∈ ({"AFG"} : Finset String)))
        [[("geoAreaCode", .vstr "AFG")], [("geoAreaCode", .vstr "ZZZ")]] :=
  (country_filter_membership {"AFG"} _).1 ⟨"AFG", by decide⟩

/-! ## Claim C5 -/

mutual
theorem mem_nodeCountryCodes :
    ∀ (n : GeoNode) (s : String),
      s ∈ nodeCountryCodes n ↔
        ∃ m, m ∈ nodeAll n ∧ isCountryTy m.ty = true ∧ pyStrOpt m.code = s
  | .mk t c ch, s => by
    simp only [nodeCountryCodes, nodeAll, List.mem_append, List.mem_cons,
      mem_forestCountryCodes ch s]
    constructor
    · rintro (h | ⟨m, hm, hmc, hms⟩)
      · by_cases hc : isCountryTy t = true
        · rw [if_pos hc] at h
          exact ⟨.mk t c ch, Or.inl rfl, hc, (List.mem_singleton.mp h).symm⟩
        · rw [if_neg hc] at h
          cases h
      · exact ⟨m, Or.inr hm, hmc, hms⟩
    · rintro ⟨m, rfl | hm, hmc, hms⟩
      · refine Or.inl ?_
        have hmc' : isCountryTy t = true := hmc
        have hms' : pyStrOpt c = s := hms
        rw [if_pos hmc']
        exact List.mem_singleton.mpr hms'.symm
      · exact Or.inr ⟨m, hm, hmc, hms⟩

theorem mem_forestCountryCodes :
    ∀ (f : GeoForest) (s : String),
      s ∈ forestCountryCodes f ↔
        ∃ m, m ∈ forestAll f ∧ isCountryTy m.ty = true ∧ pyStrOpt m.code = s
  | .nil, s => by simp [forestCountryCodes, forestAll]
  | .cons n f, s => by
    simp only [forestCountryCodes, forestAll, List.mem_append, mem_nodeCountryCodes n s,
      mem_forestCountryCodes f s]
    constructor
    · rintro (⟨m, hm, hc, hs⟩ | ⟨m, hm, hc, hs⟩)
      · exact ⟨m, Or.inl hm, hc, hs⟩
      · exact ⟨m, Or.inr hm, hc, hs⟩
    · rintro ⟨m, hm | hm, hc, hs⟩
      · exact Or.inl ⟨m, hm, hc, hs⟩
      · exact Or.inr ⟨m, hm, hc, hs⟩
end

/-- C5.  The resolver returns exactly the set of stringified `geoAreaCode`
fields of the nodes whose `type` is `"Country"`, visiting every node of every
root including nested children; on the example tree holding one Region root
whose only child is Country `"4"` it returns `{"4"}`; and on transport
failure it returns the empty set instead of raising. -/
theorem geo_resolver_country_codes :
    (∀ (forest : GeoForest) (s : String),
      s ∈ getCountryCodes (.ok forest) ↔
        ∃ m, m ∈ forestAll forest ∧ isCountryTy m.ty = true ∧ pyStrOpt m.code = s) ∧
    (∀ e : PyErr, getCountryCodes (.error e) = ∅) ∧
    getCountryCodes (.ok (.cons (.mk (some (.vstr "Region")) none
      (.cons (.mk (some (.vstr "Country")) (some (.vstr "4")) .nil) .nil)) .nil)) = {"4"} := by
  refine ⟨fun forest s => ?_, fun _ => rfl, rfl⟩
  rw [getCountryCodes]
  rw [List.mem_toFinset]
  exact mem_forestCountryCodes forest s

/-! ## Claim C6 -/

theorem lookupD_eq_none_iff (d : RecD) (k : String) :
    lookupD d k = none ↔ ∀ kv ∈ d, kv.1 ≠ k := by
  induction d with
  | nil => simp [lookupD]
  | cons kv d ih =>
    obtain ⟨k', v⟩ := kv
    by_cases hk : k' = k
    · subst hk
      simp [lookupD]
    · simp [lookupD, hk, ih]

theorem filter_ne_key_of_not_mem {d : RecD} {k : String} (h : ∀ kv ∈ d, kv.1 ≠ k) :
    (d.filter fun kv => kv.1 ≠ k) = d :=
  List.filter_eq_self.mpr fun kv hkv => by simpa using h kv hkv

theorem lookupD_filter_ne (d : RecD) (k : String) :
    lookupD (d.filter fun kv => kv.1 ≠ k) k = none := by
  rw [lookupD_eq_none_iff]
  intro kv hkv
  simpa using List.of_mem_filter hkv

theorem mem_setK {d : RecD} {k : String} {v : Value} :
    ∀ kv ∈ setK d k v, kv.1 = k ∨ kv ∈ d := by
  induction d with
  | nil =>
    intro kv h
    rw [setK, List.mem_singleton] at h
    exact Or.inl (by rw [h])
  | cons kv' d ih =>
    intro kv h
    obtain ⟨k', v'⟩ := kv'
    rw [setK] at h
    by_cases hk : k' = k
    · rw [if_pos hk] at h
      rcases List.mem_cons.mp h with rfl | hm
      · exact Or.inl hk
      · exact Or.inr (List.mem_cons_of_mem _ hm)
    · rw [if_neg hk] at h
      rcases List.mem_cons.mp h with rfl | hm
      · exact Or.inr (List.mem_cons_self _ _)
      · rcases ih kv hm with h1 | h2
        · exact Or.inl h1
        · exact Or.inr (List.mem_cons_of_mem _ h2)

theorem mem_updateD {es : RecD} :
    ∀ {d : RecD}, ∀ kv ∈ updateD d es, kv ∈ d ∨ kv.1 ∈ es.map Prod.fst := by
  induction es with
  | nil => intro d kv h; exact Or.inl h
  | cons e es ih =>
    intro d kv h
    rw [updateD, List.foldl_cons] at h
    rcases ih kv h with h1 | h2
    · rcases mem_setK kv h1 with hk | hd
      · exact Or.inr (by simp [hk])
      · exact Or.inl hd
    · exact Or.inr (by simp; exact Or.inr (by simpa using h2))

theorem lookupD_updateD_none {d es : RecD} {k : String}
    (hd : lookupD d k = none) (hes : lookupD es k = none) :
    lookupD (updateD d es) k = none := by
  rw [lookupD_eq_none_iff] at hd hes ⊢
  intro kv hkv
  rcases mem_updateD kv hkv with h | h
  · exact hd kv h
  · rcases List.mem_map.mp h with ⟨kv', hkv', hfst⟩
    rw [← hfst]
    exact hes kv' hkv'

theorem flattenRec_of_lookup_none {d : RecD} (h : lookupD d "dimensions" = none) :
    flattenRec d = d := by
  rw [flattenRec]
  simp only [h]
  exact filter_ne_key_of_not_mem ((lookupD_eq_none_iff _ _).mp h)

theorem lookupD_flattenRec_none {r : RecD} (hok : dimsOk r = true) :
    lookupD (flattenRec r) "dimensions" = none := by
  rw [flattenRec]
  cases hl : lookupD r "dimensions" with
  | none => exact lookupD_filter_ne r "dimensions"
  | some v =>
    cases v with
    | vdict dims =>
      simp only
      by_cases hemp : dims.isEmpty
      · rw [if_pos hemp]
        exact lookupD_filter_ne r "dimensions"
      · rw [if_neg hemp]
        rw [dimsOk, hl] at hok
        exact lookupD_updateD_none (lookupD_filter_ne r "dimensions")
          (Option.isNone_iff_eq_none.mp hok)
    | vnull => exact lookupD_filter_ne r "dimensions"
    | vstr s => exact lookupD_filter_ne r "dimensions"
    | vint n => exact lookupD_filter_ne r "dimensions"
    | vlist l => exact lookupD_filter_ne r "dimensions"

/-- Counterexample to C6 as stated: flattening is **not** idempotent on every
record.  On `r = \x7b"dimensions": \x7b"dimensions": 5\x7d\x7d` the first
flatten leaves a `dimensions` key bound to `5`, and the second flatten removes
it, so `flatten(flatten(r)) != flatten(r)` under Python dict equality. -/
theorem flatten_not_idempotent_on_nested_dimensions :
    lookupD (flattenRec (flattenRec [("dimensions", .vdict [("dimensions", .vint 5)])]))
      "dimensions" = none ∧
    lookupD (flattenRec [("dimensions", .vdict [("dimensions", .vint 5)])])
      "dimensions" = some (.vint 5) ∧
    ¬ PyEqD (flattenRec (flattenRec [("dimensions", .vdict [("dimensions", .vint 5)])]))
        (flattenRec [("dimensions", .vdict [("dimensions", .vint 5)])]) := by
  refine ⟨rfl, rfl, fun h => ?_⟩
  have hcontra : (none : Option Value) = some (.vint 5) := by
    with_unfolding_all exact h "dimensions"
  exact Option.noConfusion hcontra

/-- C6 amended.  Flattening is idempotent for every record whose nested
`dimensions` mapping (when present as a non-empty dict) does not itself bind
the key `"dimensions"` — nested mappings with arbitrary **other** keys are
fine — and flattening a record with no nested-dimension key returns it
unchanged. -/
theorem flatten_idempotent_when_dims_clean (r : RecD) :
    (dimsOk r = true → flattenRec (flattenRec r) = flattenRec r) ∧
    (lookupD r "dimensions" = none → flattenRec r = r) := by
  refine ⟨fun hok => ?_, fun h => flattenRec_of_lookup_none h⟩
  exact flattenRec_of_lookup_none (lookupD_flattenRec_none hok)

/-- Witness for C6 (amended): a record whose nested dimensions bind other
keys, and an already-flat record. -/
theorem flatten_idempotent_when_dims_clean_witness :
    flattenRec (flattenRec [("a", .vint 1), ("dimensions", .vdict [("b", .vint 2)])]) =
      flattenRec [("a", .vint 1), ("dimensions", .vdict [("b", .vint 2)])] ∧
    flattenRec [("a", .vint 1)] = [("a", .vint 1)] :=
  ⟨(flatten_idempotent_when_dims_clean [("a", .vint 1), ("dimensions", .vdict [("b", .vint 2)])]).1 rfl,
   (flatten_idempotent_when_dims_clean [("a", .vint 1)]).2 rfl⟩

/-! ## Normalizer lemmas -/

theorem mapExcept_ok_mem {α β : Type} {f : α → Except PyErr β} :
    ∀ {l : List α} {bs : List β}, mapExcept f l = .ok bs → ∀ b ∈ bs, ∃ a ∈ l, f a = .ok b := by
  intro l
  induction l with
  | nil =>
    intro bs h b hb
    simp only [mapExcept] at h
    injection h with h2
    subst h2
    cases hb
  | cons a l ih =>
    intro bs h b hb
    simp only [mapExcept] at h
    cases hfa : f a with
    | error e => rw [hfa] at h; exact absurd h (by simp)
    | ok b' =>
      rw [hfa] at h
      cases hml : mapExcept f l with
      | error e => rw [hml] at h; exact absurd h (by simp)
      | ok bs' =>
        rw [hml] at h
        injection h with h2
        subst h2
        rcases List.mem_cons.mp hb with rfl | hbm
        · exact ⟨a, List.mem_cons_self _ _, hfa⟩
        · obtain ⟨a', ha', hfa'⟩ := ih hml b hbm
          exact ⟨a', List.mem_cons_of_mem _ ha', hfa'⟩

/-! ## Claim C7 -/

/-- Counterexample to C7 as stated: the drop policy is the opposite of the
claimed one.  The API-sourced UN SDG normalizer **retains** the coerced
null-value row (`value="N/A"`, `year="2020"` becomes `value` null,
`year=2020`), while the CSV/ZIP-sourced ND-GAIN normalizer **drops** the
null-value row (its output for a record whose only year cell is `"N/A"` is
empty). -/
theorem null_value_row_policy_swapped :
    unsdgCleanData [] [recNA] = .ok [rowNA] ∧
    rowNA.value = none ∧ rowNA.year = some 2020 ∧
    ndgainCleanData [wideNA] = .ok [] :=
  ⟨rfl, rfl, rfl, rfl⟩

/-- C7 amended.  An input record with `value="N/A"` and `year="2020"` is
coerced to `value` null and `year=2020`; the API-sourced UN SDG normalizer
**retains** that null-value row, while the CSV/ZIP-sourced ND-GAIN normalizer
drops every null-value row from its output. -/
theorem null_value_rows_unsdg_retains_ndgain_drops :
    (∀ (records : List RecD) (rows : List NRow), ndgainCleanData records = .ok rows →
      ∀ row ∈ rows, row.value.isSome) ∧
    (unsdgCleanData [] [recNA] = .ok [rowNA] ∧ rowNA.value = none ∧
      rowNA.year = some 2020) := by
  refine ⟨fun records rows h row hrow => ?_, rfl, rfl, rfl⟩
  rw [ndgainCleanData] at h
  by_cases hemp : records.isEmpty
  · rw [if_pos hemp] at h
    injection h with h2
    subst h2
    cases hrow
  · rw [if_neg hemp] at h
    by_cases hc : ((colsOf records).contains "ISO3" && (colsOf records).contains "Name" &&
        (colsOf records).contains "indicator") = true
    · rw [if_pos hc] at h
      injection h with h2
      subst h2
      have hmem := (List.perm_insertionSort nLe _).mem_iff.mp hrow
      exact (List.mem_filter.mp hmem).2
    · rw [if_neg hc] at h
      exact absurd h (by simp)

/-- Witness for C7 (amended): the ND-GAIN output row for a parseable year cell
has a non-null value. -/
theorem null_value_rows_unsdg_retains_ndgain_drops_witness :
    nRowOK.value.isSome :=
  null_value_rows_unsdg_retains_ndgain_drops.1 [wideOK] [nRowOK] rfl nRowOK
    (List.mem_singleton.mpr rfl)

/-! ## Claim C8 -/

/-- Counterexample to C8 as stated: the World Bank normalizer does not sort
ascending by `(country, indicator, year)`.  On two records that differ only in
year it returns the year-2011 row **before** the year-2010 row (it sorts by
`(indicator-code, iso3, year)` with year descending), so its output is not
sorted by the claimed key. -/
theorem wb_sort_not_ascending_by_claimed_key :
    wbCleanData [rW "2010", rW "2011"] = .ok [wRowD 2011, wRowD 2010] ∧
    ¬ List.Sorted wbClaimLe [wRowD 2011, wRowD 2010] := by
  refine ⟨by with_unfolding_all rfl, fun h => ?_⟩
  have hle : wbClaimLe (wRowD 2011) (wRowD 2010) :=
    (List.sorted_cons.mp h).1 (wRowD 2010) (List.mem_singleton.mpr rfl)
  have hn : ¬ wbClaimLe (wRowD 2011) (wRowD 2010) := by with_unfolding_all decide
  exact hn hle

/-- C8 amended.  The UN SDG normalizer returns a batch sorted ascending by
`(country, indicator, year)` (nulls last); the World Bank normalizer instead
returns a batch sorted by `(indicator-code, iso3, year)` with year descending
(nulls last). -/
theorem normalizer_batches_sorted (classes : List (String × ClassEntry))
    (records records' : List RecD) (rows : List URow) (wrows : List WRow)
    (hu : unsdgCleanData classes records = .ok rows)
    (hw : wbCleanData records' = .ok wrows) :
    List.Sorted uLe rows ∧ List.Sorted wLe wrows := by
  constructor
  · rw [unsdgCleanData] at hu
    by_cases hemp : records.isEmpty
    · rw [if_pos hemp] at hu
      injection hu with h2
      subst h2
      exact List.sorted_nil
    · rw [if_neg hemp] at hu
      cases hm : mapExcept (mkURow classes) records with
      | error e => rw [hm] at hu; exact absurd hu (by simp)
      | ok rows' =>
        rw [hm] at hu
        injection hu with h2
        subst h2
        exact List.sorted_insertionSort uLe rows'
  · rw [wbCleanData] at hw
    cases hm : mapExcept mkWRow records' with
    | error e => rw [hm] at hw; exact absurd hw (by simp)
    | ok wrows' =>
      rw [hm] at hw
      injection hw with h2
      subst h2
      exact List.sorted_insertionSort wLe wrows'

/-- Witness for C8 (amended): concrete batches of both normalizers are
sorted under their respective keys. -/
theorem normalizer_batches_sorted_witness :
    List.Sorted uLe [rowNA] ∧ List.Sorted wLe [wRowD 2011, wRowD 2010] :=
  normalizer_batches_sorted [] [recNA] [rW "2010", rW "2011"] [rowNA]
    [wRowD 2011, wRowD 2010] rfl (by with_unfolding_all rfl)

/-! ## Claim C9 -/

/-- C9 (settled against the spec-modelled `fetchByDimension`).  A failure for
one dimension value does not abort the others: making any one value `w` fail
yields exactly the concatenation of the remaining values' results, in
iteration order.  Concretely, with values `["A", "B"]` and a mock endpoint
delivering one record per value on a single page, the batch is exactly the two
records, one per dimension value, both tagged `indicator="X"`; and if value
`"A"` fails, value `"B"` is still fetched. -/
theorem dimension_fetch_isolation_and_concat :
    (∀ (f : String → Except PyErr (List RecD)) (w : String) (vs : List String),
      fetchByDimension (fun v => if v = w then .error .transport else f v) vs =
        fetchByDimension f (vs.filter fun v => v ≠ w)) ∧
    fetchByDimension fetchOneX ["A", "B"] = [recX "A", recX "B"] ∧
    fetchByDimension (fun v => if v = "A" then .error .transport else fetchOneX v)
      ["A", "B"] = [recX "B"] ∧
    lookupD (recX "A") "indicator" = some (.vlist [.vstr "X"]) ∧
    lookupD (recX "B") "indicator" = some (.vlist [.vstr "X"]) := by
  refine ⟨fun f w vs => ?_, rfl, rfl, rfl, rfl⟩
  induction vs with
  | nil => rfl
  | cons v vs ih => by_cases hv : v = w <;> simp [fetchByDimension, hv, ih]

/-! ## Claim C10 -/

theorem lookupD_setK_self (d : RecD) (k : String) (v : Value) :
    lookupD (setK d k v) k = some v := by
  induction d with
  | nil => simp [setK, lookupD]
  | cons kv d ih =>
    obtain ⟨k', v'⟩ := kv
    rw [setK]
    by_cases hk : k' = k
    · rw [if_pos hk, lookupD, if_pos hk]
    · rw [if_neg hk, lookupD, if_neg hk]
      exact ih

theorem lookupD_filter_of_key {p : String × Value → Bool} {k : String}
    (hp : ∀ v, p (k, v) = true) :
    ∀ d : RecD, lookupD (d.filter p) k = lookupD d k := by
  intro d
  induction d with
  | nil => rfl
  | cons kv d ih =>
    obtain ⟨k', v'⟩ := kv
    rw [List.filter_cons]
    by_cases hk : k' = k
    · subst hk
      rw [hp v']
      simp [lookupD]
    · by_cases hpv : p (k', v') = true
      · simp [hpv, lookupD, hk, ih]
      · simp [hpv, lookupD, hk, ih]

theorem lookupD_filter_yearvalue (d : RecD) :
    lookupD (d.filter fun kv => kv.1 ≠ "year" ∧ kv.1 ≠ "value") "indicator" =
      lookupD d "indicator" :=
  lookupD_filter_of_key (fun v => by simp) d

theorem owid_final_stage_indicator (name : String) (hasYear : Bool)
    (rows : List RecD) (row : ORow)
    (hrow : row ∈ List.insertionSort oLe
      (((rows.map fun r => setK r "indicator" (.vstr name)).map fun r =>
        ORow.mk (r.filter fun kv => kv.1 ≠ "year" ∧ kv.1 ≠ "value")
          (if hasYear then toInt64 (toNumeric (lookupD r "year")) else none)
          (toNumeric (lookupD r "value"))).filter fun row => row.value.isSome)) :
    lookupD row.cells "indicator" = some (.vstr name) := by
  have hmem := (List.perm_insertionSort oLe _).mem_iff.mp hrow
  obtain ⟨hmem2, _⟩ := List.mem_filter.mp hmem
  obtain ⟨r', hr', heq⟩ := List.mem_map.mp hmem2
  obtain ⟨r0, hr0, heq'⟩ := List.mem_map.mp hr'
  rw [← heq]
  show lookupD (r'.filter fun kv => kv.1 ≠ "year" ∧ kv.1 ≠ "value") "indicator" =
    some (.vstr name)
  rw [lookupD_filter_yearvalue]
  rw [← heq']
  exact lookupD_setK_self r0 "indicator" _

/-- Counterexample to C10 as stated: a raw record with no `indicator` field
normalizes (UN SDG cleaner) to a row whose `indicator` is null, and the row is
kept in the output batch. -/
theorem unsdg_null_indicator_row :
    unsdgCleanData [] [[("value", .vstr "1")]] =
      .ok [⟨none, none, none, some 1, none, none, none, none, none, none, none, none, none⟩] ∧
    (⟨none, none, none, some 1, none, none, none, none, none, none, none, none,
      none⟩ : URow).indicator = none :=
  ⟨rfl, rfl⟩

/-- C10 amended.  The OWID normalizer assigns a constant non-null string
`indicator` to every row, so for it the invariant holds unconditionally; the
UN SDG and HDR normalizers instead carry a non-null `indicator` **provided**
every input record does (UN SDG: a non-empty `indicator` list with a non-null
first element; HDR: a non-null `indicator` field) — a record lacking the
field yields a retained UN SDG/HDR row with a null indicator. -/
theorem indicator_nonnull_when_input_has_indicator :
    (∀ (classes : List (String × ClassEntry)) (records : List RecD) (rows : List URow),
      unsdgCleanData classes records = .ok rows →
      (∀ r ∈ records, uIndicOk r = true) →
      ∀ row ∈ rows, row.indicator.isSome) ∧
    (∀ records : List RecD, (∀ r ∈ records, hIndicOk r = true) →
      ∀ row ∈ hdrCleanData records, row.indicator.isSome) ∧
    (∀ records : List RecD, ∀ row ∈ owidCleanData records,
      lookupD row.cells "indicator" = some (.vstr (owidPrepare records).2.2)) := by
  refine ⟨?_, ?_, ?_⟩
  · intro classes records rows h hok row hrow
    rw [unsdgCleanData] at h
    by_cases hemp : records.isEmpty
    · rw [if_pos hemp] at h
      injection h with h2
      subst h2
      cases hrow
    · rw [if_neg hemp] at h
      cases hm : mapExcept (mkURow classes) records with
      | error e => rw [hm] at h; exact absurd h (by simp)
      | ok rows' =>
        rw [hm] at h
        injection h with h2
        subst h2
        have hmem := (List.perm_insertionSort uLe rows').mem_iff.mp hrow
        obtain ⟨r, hr, hfr⟩ := mapExcept_ok_mem hm row hmem
        have hu := hok r hr
        cases hl : lookupD r "indicator" with
        | none => simp [uIndicOk, hl] at hu
        | some v =>
          simp only [uIndicOk, hl] at hu
          cases v with
          | vlist l =>
            cases l with
            | nil => simp at hu
            | cons v0 l' =>
              rw [mkURow, hl] at hfr
              simp only [Option.getD_some, pyIndex0] at hfr
              cases hn : getAttrNature r with
              | error e => rw [hn] at hfr; exact absurd hfr (by simp)
              | ok nat =>
                rw [hn] at hfr
                injection hfr with h3
                rw [← h3]
                cases v0 <;> simp_all [normOpt, notNullV]
          | vnull => simp at hu
          | vstr s => simp at hu
          | vint n => simp at hu
          | vdict d => simp at hu
  · intro records hok row hrow
    rw [hdrCleanData] at hrow
    by_cases hemp : records.isEmpty
    · rw [if_pos hemp] at hrow
      cases hrow
    · rw [if_neg hemp] at hrow
      have hmem := (List.perm_insertionSort hLe _).mem_iff.mp hrow
      obtain ⟨hmem2, _⟩ := List.mem_filter.mp hmem
      obtain ⟨r, hr, hrow_eq⟩ := List.mem_map.mp hmem2
      have hu := hok r hr
      rw [← hrow_eq]
      cases hl : lookupD r "indicator" with
      | none => simp [hIndicOk, hl] at hu
      | some v =>
        simp only [hIndicOk, hl] at hu
        have hind : (mkHRow r).indicator = normOpt (some v) := by
          simp [mkHRow, hl]
        rw [hind]
        cases v with
        | vnull => simp [notNullV] at hu
        | vstr s => simp [normOpt]
        | vint n => simp [normOpt]
        | vlist l => simp [normOpt]
        | vdict d => simp [normOpt]
  · intro records row hrow
    rw [owidCleanData] at hrow
    by_cases hemp : records.isEmpty
    · rw [if_pos hemp] at hrow
      cases hrow
    · rw [if_neg hemp] at hrow
      exact owid_final_stage_indicator (owidPrepare records).2.2
        ((owidPrepare records).1.contains "year") (owidPrepare records).2.1 row hrow

/-- Witness for C10 (amended): the UN SDG record `recNA` carries indicator
`["X"]` and normalizes to a row with a non-null indicator, and the OWID
cleaner run on a concrete record yields a row whose `indicator` cell is the
constant `state_capacity_index`. -/
theorem indicator_nonnull_when_input_has_indicator_witness :
    rowNA.indicator.isSome ∧
    lookupD (ORow.mk [("country", .vstr "Afg"), ("country_code", .vstr "AFG"),
        ("indicator", .vstr "state_capacity_index")] (some 2020) (some 1)).cells
      "indicator" = some (.vstr (owidPrepare
        [[("Entity", .vstr "Afg"), ("Code", .vstr "AFG"), ("Year", .vstr "2020"),
          ("value", .vint 1)]]).2.2) :=
  ⟨indicator_nonnull_when_input_has_indicator.1 [] [recNA] [rowNA] rfl
    (fun r hr => by obtain rfl := List.mem_singleton.mp hr; rfl)
    rowNA (List.mem_singleton.mpr rfl),
   indicator_nonnull_when_input_has_indicator.2.2
    [[("Entity", .vstr "Afg"), ("Code", .vstr "AFG"), ("Year", .vstr "2020"),
      ("value", .vint 1)]]
    (ORow.mk [("country", .vstr "Afg"), ("country_code", .vstr "AFG"),
      ("indicator", .vstr "state_capacity_index")] (some 2020) (some 1))
    (by with_unfolding_all exact List.mem_singleton.mpr rfl)⟩

end PCDash
